import Mathlib

/-!
Verification of the DNS query utility (`dns_query_utility`).

This file shallowly embeds the Go source of the repository:

* the wire codec (`query/builder.go`: `encodeDomainName`, `BuildDNSQuery`,
  `ParseDNSResponse`, `parseRecord`, `readDomainName`, `skipDomainName`),
* the status classification (`determineStatus` from the executor files and
  the `switch response.Rcode` classification of the current executor),
* the TCP transport framing (`executeTCP`),
* the worker auto-scaling policy (`config.CalculateOptimalWorkers`),
* the worker pool scheduler (`worker/pool.go`, `Execute`), modelled as a
  small-step transition system over channel states.

Byte buffers are modelled as `List Nat` whose elements are byte values;
Go slices whose nil-ness is observable are modelled as `Option (List _)`
(`none` = nil slice); fallible Go functions returning `(T, error)` are
modelled as `Except`.
-/

namespace DnsQuery

/-- Big-endian 16-bit read at index `i`, as in `binary.BigEndian.Uint16`.
Out-of-range reads yield 0; in the Go source every read is guarded by an
explicit bounds check before it happens. -/
def be16 (data : List Nat) (i : Nat) : Nat :=
  data.getD i 0 * 256 + data.getD (i + 1) 0

/-- Big-endian 16-bit byte pair for a value, as in `binary.BigEndian.PutUint16`. -/
def putUint16 (v : Nat) : List Nat :=
  [v % 65536 / 256, v % 256]

/-- Errors produced by `readDomainName` and `skipDomainName`; one constructor
per `errors.New` string in the Go source.  `outOfFuel` is the sentinel of the
fuel-based embedding of the decoder loop and is proved unreachable from the
public entry point. -/
inductive NameErr where
  | beyondPacket        -- "domain name extends beyond packet"
  | circularReference   -- "circular reference in domain name"
  | truncatedCompressionPtr -- "truncated compression pointer"
  | tooManyJumps        -- "too many compression pointer jumps"
  | labelBeyondPacket   -- "label extends beyond packet"
  | outOfFuel
  deriving DecidableEq, Repr

/-- Compression pointer target: `int(data[offset])&0x3F<<8 | int(data[offset+1])`. -/
def ptrTarget (data : List Nat) (offset : Nat) : Nat :=
  Nat.lor (Nat.shiftLeft (Nat.land (data.getD offset 0) 63) 8) (data.getD (offset + 1) 0)

/-- Render a label (a list of byte values) as a string, as Go's `string(bytes)`. -/
def labelToString (l : List Nat) : String :=
  String.mk (l.map Char.ofNat)

/-- Go's `strings.Join(parts, ".")`. -/
def joinDots : List String → String
  | [] => ""
  | p :: rest => rest.foldl (fun acc q => acc ++ "." ++ q) p

/-- Go's `strings.Join(parts, " ")`. -/
def joinSpaces : List String → String
  | [] => ""
  | p :: rest => rest.foldl (fun acc q => acc ++ " " ++ q) p

/-- Loop body of `readDomainName`, with an explicit fuel argument standing for
the iteration count.  Each iteration first checks the offset bound, then the
visited set, exactly as the Go loop does; `visited` collects the offsets of the
length bytes already seen. -/
def readDomainNameAux (data : List Nat) :
    Nat → Nat → List Nat → Nat → List String → Except NameErr String
  | 0, _, _, _, _ => .error .outOfFuel
  | fuel + 1, offset, visited, jumps, parts =>
    if data.length ≤ offset then
      .error .beyondPacket
    else if offset ∈ visited then
      .error .circularReference
    else
      let visited := offset :: visited
      let length := data.getD offset 0
      if 192 ≤ length then
        if data.length ≤ offset + 1 then
          .error .truncatedCompressionPtr
        else if 10 < jumps + 1 then
          .error .tooManyJumps
        else
          readDomainNameAux data fuel (ptrTarget data offset) visited (jumps + 1) parts
      else if length = 0 then
        .ok (if parts.isEmpty then "." else joinDots parts)
      else
        if data.length < offset + 1 + length then
          .error .labelBeyondPacket
        else
          readDomainNameAux data fuel (offset + 1 + length) visited jumps
            (parts ++ [labelToString ((data.drop (offset + 1)).take length)])

/-- `readDomainName` from `query/builder.go`: reads and reconstructs a domain
name from a DNS response, following compression pointers.  The initial fuel
`data.length + 1` is proved sufficient (`readDomainNameAux_ne_outOfFuel`). -/
def readDomainName (data : List Nat) (offset : Nat) : Except NameErr String :=
  readDomainNameAux data (data.length + 1) offset [] 0 []

/-- Loop body of `skipDomainName`, with an explicit fuel argument standing for
the iteration count; the sentinel is proved unreachable from the entry point
(`skipDomainNameAux_ne_outOfFuel`). -/
def skipDomainNameAux (data : List Nat) : Nat → Nat → Except NameErr Nat
  | 0, _ => .error .outOfFuel
  | fuel + 1, offset =>
    if data.length ≤ offset then
      .error .beyondPacket
    else
      let length := data.getD offset 0
      if 192 ≤ length then
        .ok (offset + 2)
      else if length = 0 then
        .ok (offset + 1)
      else
        skipDomainNameAux data fuel (offset + 1 + length)

/-- `skipDomainName` from `query/builder.go`: advances past a (possibly
compressed) domain name without decoding it. -/
def skipDomainName (data : List Nat) (offset : Nat) : Except NameErr Nat :=
  skipDomainNameAux data (data.length + 1) offset

/-- DNS record type wire codes from `query/builder.go`. -/
def TypeA : Nat := 1
def TypeNS : Nat := 2
def TypeCNAME : Nat := 5
def TypeSOA : Nat := 6
def TypePTR : Nat := 12
def TypeMX : Nat := 15
def TypeTXT : Nat := 16
def TypeAAAA : Nat := 28
def TypeSRV : Nat := 33
def TypeCAA : Nat := 257

/-- `recordTypeName` from `query/builder.go`. -/
def recordTypeName (rtype : Nat) : String :=
  if rtype = TypeA then "A"
  else if rtype = TypeNS then "NS"
  else if rtype = TypeCNAME then "CNAME"
  else if rtype = TypeSOA then "SOA"
  else if rtype = TypePTR then "PTR"
  else if rtype = TypeMX then "MX"
  else if rtype = TypeTXT then "TXT"
  else if rtype = TypeAAAA then "AAAA"
  else if rtype = TypeSRV then "SRV"
  else if rtype = TypeCAA then "CAA"
  else "TYPE" ++ toString rtype

/-- Dotted-decimal rendering of four bytes, as `fmt.Sprintf("%d.%d.%d.%d", ...)`. -/
def formatIPv4 (a b c d : Nat) : String :=
  toString a ++ "." ++ toString b ++ "." ++ toString c ++ "." ++ toString d

/-- Lowercase hexadecimal rendering of a number without padding, as Go's `%x`. -/
def hexStr (n : Nat) : String :=
  String.mk (Nat.toDigits 16 n)

/-- Eight colon-separated hex groups, as
`fmt.Sprintf("%x:%x:%x:%x:%x:%x:%x:%x", ...)` over the eight big-endian
16-bit groups of a 16-byte AAAA payload. -/
def formatIPv6 (data : List Nat) (offset : Nat) : String :=
  joinColons ([0, 1, 2, 3, 4, 5, 6, 7].map (fun k => hexStr (be16 data (offset + 2 * k))))
where
  joinColons : List String → String
    | [] => ""
    | p :: rest => rest.foldl (fun acc q => acc ++ ":" ++ q) p

/-- Loop body of the TXT payload walk of `parseRecord`, with an explicit fuel
argument; each iteration advances the offset by at least one, so fuel
`endOffset + 1` always suffices and the fuel-exhausted branch is unreachable
from `txtParts`. -/
def txtPartsAux (data : List Nat) : Nat → Nat → Nat → List String
  | 0, _, _ => []
  | fuel + 1, txtOffset, endOffset =>
    if txtOffset < endOffset then
      let strLen := data.getD txtOffset 0
      if endOffset < txtOffset + 1 + strLen then
        []
      else
        labelToString ((data.drop (txtOffset + 1)).take strLen) ::
          txtPartsAux data fuel (txtOffset + 1 + strLen) endOffset
    else
      []

/-- TXT payload walk from `parseRecord`: a sequence of length-prefixed
character strings inside `data[offset, endOffset)`. -/
def txtParts (data : List Nat) (txtOffset endOffset : Nat) : List String :=
  txtPartsAux data (endOffset + 1) txtOffset endOffset

/-- `parseRecord` from `query/builder.go`: extracts human-readable data from a
DNS resource record; returns `""` when the record is unsupported or malformed,
which causes the caller to skip it. -/
def parseRecord (data : List Nat) (offset : Nat) (recordType : Nat) (rdLength : Nat) : String :=
  if recordType = TypeA then
    if rdLength = 4 then
      formatIPv4 (data.getD offset 0) (data.getD (offset + 1) 0)
        (data.getD (offset + 2) 0) (data.getD (offset + 3) 0)
    else ""
  else if recordType = TypeAAAA then
    if rdLength = 16 then formatIPv6 data offset else ""
  else if recordType = TypeCNAME ∨ recordType = TypePTR ∨ recordType = TypeNS then
    match readDomainName data offset with
    | .ok name => recordTypeName recordType ++ ":" ++ name
    | .error _ => ""
  else if recordType = TypeMX then
    if 4 ≤ rdLength then
      match readDomainName data (offset + 2) with
      | .ok exchange => "MX:" ++ toString (be16 data offset) ++ " " ++ exchange
      | .error _ => ""
    else ""
  else if recordType = TypeTXT then
    let parts := txtParts data offset (offset + rdLength)
    if parts.isEmpty then "" else "TXT:" ++ joinSpaces parts
  else if recordType = TypeSOA then
    match readDomainName data offset with
    | .ok mname => "SOA:" ++ mname
    | .error _ => ""
  else if recordType = TypeSRV then
    if 8 ≤ rdLength then
      match readDomainName data (offset + 6) with
      | .ok target =>
        "SRV:" ++ toString (be16 data offset) ++ " " ++ toString (be16 data (offset + 2)) ++
          " " ++ toString (be16 data (offset + 4)) ++ " " ++ target
      | .error _ => ""
    else ""
  else if recordType = TypeCAA then
    if 4 ≤ rdLength then
      let tagLen := data.getD (offset + 1) 0
      if 2 + tagLen ≤ rdLength then
        "CAA:" ++ toString (data.getD offset 0) ++ " " ++
          labelToString ((data.drop (offset + 2)).take tagLen) ++ " " ++
          labelToString ((data.drop (offset + 2 + tagLen)).take (rdLength - (2 + tagLen)))
      else ""
    else ""
  else ""

/-- Accumulators of the record loop of `ParseDNSResponse`: IPs (A/AAAA),
CNAME chain, and other records. -/
structure RecordAcc where
  ips : List String
  cnames : List String
  otherRecords : List String
  deriving Repr, DecidableEq

/-- Record-section loop of `ParseDNSResponse`: walks up to `remaining` resource
records starting at `offset`, classifying each parsed record; any bound
violation stops the walk without error. -/
def parseRecordsLoop (response : List Nat) : Nat → Nat → RecordAcc → RecordAcc
  | 0, _, acc => acc
  | remaining + 1, offset, acc =>
    if response.length ≤ offset then acc
    else
      match skipDomainName response offset with
      | .error _ => acc
      | .ok offset =>
        if response.length < offset + 10 then acc
        else
          let recordType := be16 response offset
          let rdLength := be16 response (offset + 8)
          let offset := offset + 10
          if response.length < offset + rdLength then acc
          else
            let record := parseRecord response offset recordType rdLength
            let acc :=
              if record = "" then acc
              else if recordType = TypeA ∨ recordType = TypeAAAA then
                { acc with ips := acc.ips ++ [record] }
              else if recordType = TypeCNAME then
                { acc with cnames := acc.cnames ++ [record] }
              else
                { acc with otherRecords := acc.otherRecords ++ [record] }
            parseRecordsLoop response remaining (offset + rdLength) acc

/-- Question-section skip loop of `ParseDNSResponse`: skips `count` questions
(name + 4 bytes of type/class each); a malformed name aborts the whole decode. -/
def skipQuestions (response : List Nat) : Nat → Nat → Except NameErr Nat
  | 0, offset => .ok offset
  | count + 1, offset =>
    match skipDomainName response offset with
    | .error e => .error e
    | .ok newOffset => skipQuestions response count (newOffset + 4)

/-- `ParseDNSResponse` from `query/builder.go`: extracts the RCODE and the
answer list from a DNS response buffer.  Returns the pair
`(rcode, answers)` on success. -/
def ParseDNSResponse (response : List Nat) : Except NameErr (Nat × List String) :=
  if response.length < 12 then
    .error .beyondPacket -- "response too short"
  else
    let flags := be16 response 2
    let rcode := Nat.land flags 15
    let questionCount := be16 response 4
    let answerCount := be16 response 6
    let authorityCount := be16 response 8
    let additionalCount := be16 response 10
    let totalRecords := answerCount + authorityCount + additionalCount
    if rcode ≠ 0 then
      .ok (rcode, [])
    else
      match skipQuestions response questionCount 12 with
      | .error e => .error e
      | .ok offset =>
        let acc := parseRecordsLoop response totalRecords offset ⟨[], [], []⟩
        .ok (rcode, acc.cnames ++ acc.ips ++
          (if acc.ips.isEmpty ∧ ¬acc.otherRecords.isEmpty then acc.otherRecords else []))

/-- Build errors of the encoder; one constructor per `errors.New` string. -/
inductive BuildErr where
  | emptyDomain   -- "domain cannot be empty"
  | emptyLabel    -- "domain has empty label"
  | labelTooLong  -- "domain label exceeds 63 characters"
  deriving DecidableEq, Repr

/-- Go's `strings.TrimSuffix(domain, ".")` on a byte string: drops a single
trailing dot (byte 46) when present. -/
def trimSuffixDot (domain : List Nat) : List Nat :=
  if domain.getLast? = some 46 then domain.dropLast else domain

/-- Go's `strings.Split(domain, ".")` on a byte string: splits at every dot,
yielding `[[]]` on the empty string. -/
def splitOnDot : List Nat → List (List Nat)
  | [] => [[]]
  | b :: rest =>
    if b = 46 then
      [] :: splitOnDot rest
    else
      match splitOnDot rest with
      | [] => [[b]]
      | l :: ls => (b :: l) :: ls

/-- Label validation loop of `encodeDomainName`: the first empty or oversized
label determines the error. -/
def checkLabels : List (List Nat) → Except BuildErr Unit
  | [] => .ok ()
  | l :: ls =>
    if l.length = 0 then .error .emptyLabel
    else if 63 < l.length then .error .labelTooLong
    else checkLabels ls

/-- `encodeDomainName` from `query/builder.go`: length-prefixed label wire form
terminated by a zero byte. -/
def encodeDomainName (domain : List Nat) : Except BuildErr (List Nat) :=
  let labels := splitOnDot (trimSuffixDot domain)
  match checkLabels labels with
  | .error e => .error e
  | .ok _ => .ok ((labels.map (fun l => l.length :: l)).flatten ++ [0])

/-- `buildDNSHeader` from `query/builder.go`: 12-byte header with flags
`0x0100` (recursion desired) and the given question count. -/
def buildDNSHeader (txID questionCount : Nat) : List Nat :=
  putUint16 txID ++ putUint16 0x0100 ++ putUint16 questionCount ++
    putUint16 0 ++ putUint16 0 ++ putUint16 0

/-- `buildDNSQuestion` from `query/builder.go`. -/
def buildDNSQuestion (domain : List Nat) (queryType cls : Nat) :
    Except BuildErr (List Nat) :=
  match encodeDomainName domain with
  | .error e => .error e
  | .ok encoded => .ok (encoded ++ putUint16 queryType ++ putUint16 cls)

/-- `BuildDNSQuery` from `query/builder.go`.  The transaction id, drawn from
`rand.Intn(65536)` in the source, is threaded as a parameter. -/
def BuildDNSQuery (txID : Nat) (domain : List Nat) (queryType : Nat) :
    Except BuildErr (List Nat) :=
  if domain.isEmpty then
    .error .emptyDomain
  else
    match buildDNSQuestion domain queryType 1 with
    | .error e => .error e
    | .ok question => .ok (buildDNSHeader txID 1 ++ question)

end DnsQuery

namespace DnsResult

/-- Query statuses from `result/result.go`. -/
inductive Status where
  | success
  | noAnswer
  | nxdomain
  | servfail
  | refused
  | timeout
  | error
  deriving DecidableEq, Repr

end DnsResult

namespace DnsConfig

/-- `MinWorkers` from `config/config.go`. -/
def MinWorkers : Nat := 1

/-- `MaxWorkers` from `config/config.go`. -/
def MaxWorkers : Nat := 50

/-- `WorkersPerQuery` from `config/config.go`. -/
def WorkersPerQuery : Nat := 5

/-- `CalculateOptimalWorkers` from `config/config.go`, on batch sizes ≥ 0
(the claim's domain); Go's `queryCount <= 0` guard becomes `queryCount = 0`. -/
def CalculateOptimalWorkers (queryCount : Nat) : Nat :=
  if queryCount = 0 then
    MinWorkers
  else
    let workers :=
      if queryCount ≤ 10 then
        queryCount
      else if queryCount ≤ 50 then
        let w := queryCount / WorkersPerQuery
        if w < 5 then 5 else w
      else
        queryCount / WorkersPerQuery + 5
    let workers := if workers < MinWorkers then MinWorkers else workers
    if MaxWorkers < workers then MaxWorkers else workers

end DnsConfig

namespace DnsExec

open DnsResult
open DnsQuery (joinSpaces)

/-- Modelled from the spec: the status table of §4.3, keyed by
`(responseCode, hasIPAnswer)`.  Used only to compare the code's
classification against the spec's words. -/
def specStatusTable (responseCode : Nat) (hasIPAnswer : Bool) : Status :=
  if responseCode = 0 then (if hasIPAnswer then .success else .noAnswer)
  else if responseCode = 3 then .nxdomain
  else if responseCode = 2 then .servfail
  else if responseCode = 5 then .refused
  else .error

/-- `determineStatus` from the hand-rolled executors (`executor.go` history):
maps the RCODE and the resolved-IP list to a semantic status. -/
def determineStatus (rcode : Nat) (ips : List String) : Status :=
  if rcode = 0 then (if ips.length > 0 then .success else .noAnswer)
  else if rcode = 3 then .nxdomain
  else if rcode = 2 then .servfail
  else if rcode = 5 then .refused
  else .error

/-- Decoded resource records as surfaced by the `miekg/dns` library in the
current executor; `other` carries the type name and rendered body used by the
default branches. -/
inductive RR where
  | A (ip : String)
  | AAAA (ip : String)
  | CNAME (target : String)
  | MX (pref : Nat) (mx : String)
  | NS (ns : String)
  | TXT (txt : List String)
  | SOA (ns mbox : String)
  | PTR (ptr : String)
  | SRV (priority weight port : Nat) (target : String)
  | other (typeName rendered : String)
  deriving DecidableEq, Repr

/-- A decoded DNS message: RCODE plus answer, authority (`Ns`) and
additional (`Extra`) sections. -/
structure DnsMsg where
  rcode : Nat
  answer : List RR
  ns : List RR
  extra : List RR
  deriving DecidableEq, Repr

/-- Outcome of one `client.Exchange` call: a decoded message or an error
string (timeouts are recognised by substring, as in the source). -/
inductive ExchangeResult where
  | ok (m : DnsMsg)
  | err (msg : String)
  deriving DecidableEq, Repr

/-- Go's `strings.Contains(msg, "timeout")`. -/
def containsTimeout (msg : String) : Bool :=
  decide (List.IsInfix "timeout".toList msg.toList)

/-- One iteration of the `parseAnswers` loop: each answer contributes to
exactly one of the two lists. -/
def parseAnswersStep (acc : List String × List String) (rr : RR) :
    List String × List String :=
  match rr with
  | .A ip => (acc.1 ++ [ip], acc.2)
  | .AAAA ip => (acc.1 ++ [ip], acc.2)
  | .CNAME target => (acc.1, acc.2 ++ ["CNAME:" ++ target])
  | .MX pref mx => (acc.1, acc.2 ++ ["MX:" ++ toString pref ++ " " ++ mx])
  | .NS ns => (acc.1, acc.2 ++ ["NS:" ++ ns])
  | .TXT txt => (acc.1, acc.2 ++ ["TXT:" ++ joinSpaces txt])
  | .SOA ns mbox => (acc.1, acc.2 ++ ["SOA:" ++ ns ++ " " ++ mbox])
  | .PTR ptr => (acc.1, acc.2 ++ ["PTR:" ++ ptr])
  | .SRV p w po t =>
    (acc.1, acc.2 ++ ["SRV:" ++ toString p ++ " " ++ toString w ++ " " ++
      toString po ++ " " ++ t])
  | .other typeName rendered => (acc.1, acc.2 ++ [typeName ++ ":" ++ rendered])

/-- `parseAnswers` from the current executor: splits answers into resolved
IPs (A/AAAA) and formatted record strings. -/
def parseAnswers (answers : List RR) : List String × List String :=
  answers.foldl parseAnswersStep ([], [])

/-- `extractRecords` from the current executor: formats authority/additional
records for the `NoAnswer` diagnostic. -/
def extractRecords (rrs : List RR) : List String :=
  rrs.map fun rr =>
    match rr with
    | .MX pref mx => "MX:" ++ toString pref ++ " " ++ mx
    | .NS ns => "NS:" ++ ns
    | .TXT txt => "TXT:" ++ joinSpaces txt
    | .SOA ns _ => "SOA:" ++ ns
    | .A _ => "A"
    | .AAAA _ => "AAAA"
    | .CNAME _ => "CNAME"
    | .PTR _ => "PTR"
    | .SRV _ _ _ _ => "SRV"
    | .other typeName _ => typeName

/-- A Go string slice whose nil-ness is observable: `none` is a nil slice,
`some l` a non-nil slice with elements `l`. -/
abbrev GoSlice (α : Type) := Option (List α)

/-- Go's `len` on a possibly-nil slice. -/
def goLen {α : Type} : GoSlice α → Nat
  | none => 0
  | some l => l.length

/-- `extractAuthoritativeNS` from the current executor: collects NS names (and
`SOA:`-prefixed primaries) from the authority and additional sections into a
deduplicated slice; nil when nothing was found.  The Go map iteration order is
modelled as first-occurrence order, which no claim observes. -/
def extractAuthoritativeNS (authority additional : List RR) : GoSlice String :=
  let fromAuthority := authority.filterMap fun rr =>
    match rr with
    | .NS ns => some ns
    | .SOA ns _ => some ("SOA:" ++ ns)
    | _ => none
  let fromAdditional := additional.filterMap fun rr =>
    match rr with
    | .NS ns => some ns
    | _ => none
  let all := (fromAuthority ++ fromAdditional).dedup
  if all.isEmpty then none else some all

/-- `lookupAuthoritativeNS` from the current executor, parameterized by the
outcome of its one NS `Exchange` call: empty non-nil slice on error, otherwise
NS names from the answer section, else the authority section, else the
additional section (nil when all are empty). -/
def lookupAuthoritativeNS (lookupExch : ExchangeResult) : GoSlice String :=
  match lookupExch with
  | .err _ => some []
  | .ok resp =>
    let nsOf : List RR → List String := fun rrs =>
      rrs.filterMap fun rr => match rr with | .NS ns => some ns | _ => none
    let fromAnswer := nsOf resp.answer
    let l :=
      if ¬fromAnswer.isEmpty then fromAnswer
      else
        let fromAuthority := nsOf resp.ns
        if ¬fromAuthority.isEmpty then fromAuthority else nsOf resp.extra
    if l.isEmpty then none else some l

/-- The fields of `result.QueryResult` that the executor's control flow
writes; `authoritativeNS` keeps the nil/empty distinction. -/
structure QueryResultM where
  status : Status
  responseCode : Nat
  resolvedIPs : List String
  records : List String
  authoritativeNS : GoSlice String
  errMsg : String
  deriving DecidableEq, Repr

/-- Status-classification stage of the current executor: the
`switch response.Rcode` block, updating status, records, resolved IPs and the
error message of the result under construction. -/
def classifyResponse (response : DnsMsg) (res : QueryResultM) : QueryResultM :=
  if response.rcode = 0 then
    if response.answer.isEmpty then
      let allRecords := response.ns ++ response.extra
      if ¬allRecords.isEmpty then
        { res with
            status := .noAnswer
            records := extractRecords allRecords
            errMsg := "no A/AAAA records found" }
      else
        { res with status := .noAnswer, errMsg := "no records found" }
    else
      let (ips, records) := parseAnswers response.answer
      let res := { res with resolvedIPs := ips, records := records }
      if ¬ips.isEmpty ∨ ¬records.isEmpty then
        { res with status := .success }
      else
        { res with
            status := .noAnswer
            errMsg := "response contained no useful records" }
  else if response.rcode = 3 then
    { res with status := .nxdomain, errMsg := "domain does not exist" }
  else if response.rcode = 2 then
    { res with status := .servfail, errMsg := "server failure" }
  else if response.rcode = 5 then
    { res with status := .refused, errMsg := "query refused" }
  else
    { res with
        status := .error
        errMsg := "unexpected response code: " ++ toString response.rcode }

/-- Fallback stage of the current executor: when no authoritative NS was found
in the response, use the outcome of one extra NS lookup, and finally replace a
nil slice by the empty one. -/
def applyNSFallback (lk : ExchangeResult) (res : QueryResultM) : QueryResultM :=
  let res :=
    if goLen res.authoritativeNS = 0 then
      { res with authoritativeNS := lookupAuthoritativeNS lk }
    else res
  if res.authoritativeNS.isNone then
    { res with authoritativeNS := some [] }
  else res

/-- `ExecuteQuery` from the current executor (`query/executor.go`): the
decision structure after the retry loop, parameterized by the outcome of the
final `client.Exchange` call and by the outcome of the fallback NS lookup's
own exchange.  Latency and spec echo fields carry no logic and are omitted. -/
def ExecuteQuery (exch : ExchangeResult) (lookupExch : ExchangeResult) :
    QueryResultM :=
  let res : QueryResultM :=
    { status := .error, responseCode := 0, resolvedIPs := [], records := [],
      authoritativeNS := some [], errMsg := "" }
  match exch with
  | .err msg =>
    { res with
        errMsg := msg
        status := if containsTimeout msg then .timeout else .error }
  | .ok response =>
    let res := { res with
      responseCode := response.rcode
      authoritativeNS := extractAuthoritativeNS response.ns response.extra }
    applyNSFallback lookupExch (classifyResponse response res)

end DnsExec

namespace DnsTransport

open DnsQuery (putUint16 be16)

/-- Transport errors of `executeTCP`; a read from an exhausted byte stream
fails, as a closed TCP connection does. -/
inductive TcpErr where
  | readFailed
  | outOfFuel
  deriving DecidableEq, Repr

/-- The accumulation loop of `executeTCP`: reads from the byte stream until
`needed` bytes have been collected.  `sched` is the environment's choice of how
many bytes each `conn.Read` call delivers (at least one, as TCP guarantees for
a successful read); fewer are delivered when the request or the stream is
shorter. -/
def readFullAux : Nat → List Nat → List Nat → Nat → Except TcpErr (List Nat)
  | 0, _, _, needed => if needed = 0 then .ok [] else .error .outOfFuel
  | fuel + 1, stream, sched, needed =>
    if needed = 0 then .ok []
    else if stream.isEmpty then .error .readFailed
    else
      let n := min (max 1 (sched.headD 1)) needed
      let got := stream.take n
      match readFullAux fuel (stream.drop n) sched.tail (needed - got.length) with
      | .error e => .error e
      | .ok rest => .ok (got ++ rest)

/-- Fuel wrapper for the accumulation loop: every successful read delivers at
least one byte, so `needed` units of fuel always suffice. -/
def readFull (stream sched : List Nat) (needed : Nat) : Except TcpErr (List Nat) :=
  readFullAux needed stream sched needed

/-- `executeTCP` from the transport executor (`executor.go`): writes the
2-byte big-endian length prefix followed by the packet, then reads a 2-byte
length with a single `conn.Read` call (`n1` bytes delivered, capped at 2) and
accumulates that many response bytes.  Returns the bytes written on the
connection and the read outcome. -/
def executeTCP (packet stream : List Nat) (n1 : Nat) (sched : List Nat) :
    List Nat × Except TcpErr (List Nat) :=
  let written := putUint16 packet.length ++ packet
  let readRes : Except TcpErr (List Nat) :=
    if stream.isEmpty then .error .readFailed
    else
      let n := min (max 1 n1) 2
      let got := stream.take n
      let responseLength := got.getD 0 0 * 256 + got.getD 1 0
      readFull (stream.drop n) sched responseLength
  (written, readRes)

end DnsTransport

namespace WorkerPool

/-- Program counter of the driver goroutine in `worker.Execute`: it drains the
results channel, then waits on the pool, which closes the results channel. -/
inductive MainPC where
  | drain
  | waiting
  | closing
  | done
  deriving DecidableEq, Repr

/-- Global state of `worker.Execute`: the submitter goroutine's remaining
specs, the two buffered channels with their closed flags, worker-held results,
exited-worker count, and the driver's collected results.  Specs and results
are identified by numbers. -/
structure PoolState where
  toSubmit : List Nat
  jobsClosed : Bool
  jobsBuf : List Nat
  resBuf : List Nat
  resClosed : Bool
  holding : List Nat
  exited : Nat
  collected : List Nat
  mainPC : MainPC
  deriving DecidableEq, Repr

/-- Interleaving semantics of `worker.Execute` with `W` workers, where `exec`
is the query executor each worker applies to a taken spec.  Channel capacity
is `workerCount * 2` as in `NewPool`; blocked operations simply have no
enabled step.  The driver (`Execute`) ranges over the results channel, and
only after that loop exits does it call `Wait`, which joins the workers and
closes the results channel. -/
inductive Step (W : Nat) (exec : Nat → Nat) : PoolState → PoolState → Prop where
  | submit (s : PoolState) (spec : Nat) (rest : List Nat) :
      s.toSubmit = spec :: rest → s.jobsClosed = false → s.jobsBuf.length < 2 * W →
      Step W exec s { s with toSubmit := rest, jobsBuf := s.jobsBuf ++ [spec] }
  | closeJobs (s : PoolState) :
      s.toSubmit = [] → s.jobsClosed = false →
      Step W exec s { s with jobsClosed := true }
  | take (s : PoolState) (j : Nat) (rest : List Nat) :
      s.jobsBuf = j :: rest → s.exited + s.holding.length < W →
      Step W exec s { s with jobsBuf := rest, holding := s.holding ++ [exec j] }
  | push (s : PoolState) (r : Nat) (rest : List Nat) :
      s.holding = r :: rest → s.resBuf.length < 2 * W →
      Step W exec s { s with holding := rest, resBuf := s.resBuf ++ [r] }
  | exitWorker (s : PoolState) :
      s.jobsClosed = true → s.jobsBuf = [] → s.exited + s.holding.length < W →
      Step W exec s { s with exited := s.exited + 1 }
  | recv (s : PoolState) (r : Nat) (rest : List Nat) :
      s.mainPC = .drain → s.resBuf = r :: rest →
      Step W exec s { s with resBuf := rest, collected := s.collected ++ [r] }
  | endDrain (s : PoolState) :
      s.mainPC = .drain → s.resBuf = [] → s.resClosed = true →
      Step W exec s { s with mainPC := .waiting }
  | waitDone (s : PoolState) :
      s.mainPC = .waiting → s.exited = W →
      Step W exec s { s with mainPC := .closing }
  | closeResults (s : PoolState) :
      s.mainPC = .closing →
      Step W exec s { s with mainPC := .done, resClosed := true }

/-- Initial state of `worker.Execute` on a batch of specs. -/
def init (specs : List Nat) : PoolState :=
  { toSubmit := specs, jobsClosed := false, jobsBuf := [], resBuf := [],
    resClosed := false, holding := [], exited := 0, collected := [],
    mainPC := .drain }

/-- Reachability under the interleaving semantics. -/
def Reachable (W : Nat) (exec : Nat → Nat) (s t : PoolState) : Prop :=
  Relation.ReflTransGen (Step W exec) s t

end WorkerPool

namespace DnsQuery

/-- The visited-offset set bounds the iteration count of the name decoder:
with fuel at least `data.length + 1 - visited.length`, the fuel sentinel is
unreachable, because every iteration consumes a fresh in-bounds offset. -/
theorem readDomainNameAux_ne_outOfFuel (data : List Nat) :
    ∀ (fuel offset : Nat) (visited : List Nat) (jumps : Nat) (parts : List String),
      visited.Nodup → (∀ v ∈ visited, v < data.length) →
      data.length + 1 ≤ fuel + visited.length →
      readDomainNameAux data fuel offset visited jumps parts ≠ .error .outOfFuel := by
  intro fuel
  induction fuel with
  | zero =>
    intro offset visited jumps parts hnd hlt hle
    exfalso
    have hcard : visited.length ≤ data.length := by
      have h1 : visited.toFinset.card = visited.length :=
        List.toFinset_card_of_nodup hnd
      have h2 : visited.toFinset ⊆ Finset.range data.length := by
        intro v hv
        rw [List.mem_toFinset] at hv
        exact Finset.mem_range.mpr (hlt v hv)
      calc visited.length = visited.toFinset.card := h1.symm
        _ ≤ (Finset.range data.length).card := Finset.card_le_card h2
        _ = data.length := Finset.card_range _
    omega
  | succ fuel ih =>
    intro offset visited jumps parts hnd hlt hle
    simp only [readDomainNameAux]
    split
    · simp
    · split
      · simp
      · rename_i hoff hmem
        split
        · split
          · simp
          · split
            · simp
            · exact ih _ (offset :: visited) _ _
                (List.nodup_cons.mpr ⟨hmem, hnd⟩)
                (by
                  intro v hv
                  rcases List.mem_cons.mp hv with h | h
                  · subst h; omega
                  · exact hlt v h)
                (by simp; omega)
        · split
          · simp
          · split
            · simp
            · exact ih _ (offset :: visited) _ _
                (List.nodup_cons.mpr ⟨hmem, hnd⟩)
                (by
                  intro v hv
                  rcases List.mem_cons.mp hv with h | h
                  · subst h; omega
                  · exact hlt v h)
                (by simp; omega)

/-- The length of a dot-join is at least the length of its first part. -/
theorem joinDots_length (p : String) (rest : List String) :
    p.length ≤ (joinDots (p :: rest)).length := by
  simp only [joinDots]
  induction rest generalizing p with
  | nil => simp
  | cons q rest ih =>
    simp only [List.foldl_cons]
    calc p.length ≤ (p ++ "." ++ q).length := by
          simp [String.length_append]; omega
      _ ≤ _ := ih (p ++ "." ++ q)

/-- A successful name decode whose accumulated parts are all non-empty yields
a non-empty string. -/
theorem readDomainNameAux_ok_ne_empty (data : List Nat) :
    ∀ (fuel offset : Nat) (visited : List Nat) (jumps : Nat) (parts : List String)
      (s : String), (∀ p ∈ parts, p ≠ "") →
      readDomainNameAux data fuel offset visited jumps parts = .ok s → s ≠ "" := by
  intro fuel
  induction fuel with
  | zero => intro offset visited jumps parts s _ h; simp [readDomainNameAux] at h
  | succ fuel ih =>
    intro offset visited jumps parts s hp h
    simp only [readDomainNameAux] at h
    split at h
    · simp at h
    · split at h
      · simp at h
      · split at h
        · split at h
          · simp at h
          · split at h
            · simp at h
            · exact ih _ _ _ parts s hp h
        · split at h
          · rename_i hzero
            simp only [Except.ok.injEq] at h
            subst h
            split
            · simp
            · rename_i hne
              rcases parts with _ | ⟨p, rest⟩
              · simp at hne
              · have h1 : p ≠ "" := hp p (by simp)
                have h2 : 1 ≤ p.length := by
                  cases p with
                  | mk l =>
                    cases l with
                    | nil => exact absurd rfl h1
                    | cons c cs => simp [String.length_mk]
                have := joinDots_length p rest
                intro hcon
                rw [hcon] at this
                simp at this
                omega
          · split at h
            · simp at h
            · refine ih _ _ _ _ s ?_ h
              intro p hpmem
              rcases List.mem_append.mp hpmem with hm | hm
              · exact hp p hm
              · rename_i hlen192 hlen0 hfit
                simp only [List.mem_singleton] at hm
                subst hm
                simp only [labelToString]
                intro hcon
                have hlist : (((data.drop (offset + 1)).take
                    (data.getD offset 0)).map Char.ofNat).length = 0 := by
                  have := congrArg String.length hcon
                  simpa [String.length_mk, String.length_empty] using this
                rw [List.length_map, List.length_take, List.length_drop] at hlist
                omega

end DnsQuery

/-- C3: for every input buffer and starting offset, decoding a domain name
terminates — the visited-offset set and the 10-jump counter bound the work, so
the fuel sentinel is unreachable; a compression pointer that points to itself
fails with the circular-reference error, a pointer chain of more than 10 jumps
fails with the too-many-jumps error, and a cyclic two-pointer chain fails with
the circular-reference error. -/
theorem c3_name_decoding_terminates :
    (∀ (data : List Nat) (offset : Nat),
        DnsQuery.readDomainName data offset ≠ .error .outOfFuel)
    ∧ (∀ (data : List Nat) (offset : Nat),
        offset + 1 < data.length → 192 ≤ data.getD offset 0 →
        DnsQuery.ptrTarget data offset = offset →
        DnsQuery.readDomainName data offset = .error .circularReference)
    ∧ DnsQuery.readDomainName
        [192, 2, 192, 4, 192, 6, 192, 8, 192, 10, 192, 12, 192, 14, 192, 16,
          192, 18, 192, 20, 192, 22] 0 = .error .tooManyJumps
    ∧ DnsQuery.readDomainName [192, 2, 192, 0] 0 = .error .circularReference := by
  refine ⟨?_, ?_, by rfl, by rfl⟩
  · intro data offset
    exact DnsQuery.readDomainNameAux_ne_outOfFuel data _ _ [] _ _
      (by simp) (by simp) (by simp)
  · intro data offset h1 h2 h3
    unfold DnsQuery.readDomainName
    obtain ⟨k, hk⟩ : ∃ k, data.length = k + 2 := ⟨data.length - 2, by omega⟩
    rw [hk]
    simp only [DnsQuery.readDomainNameAux]
    simp only [List.getD_eq_getElem?_getD] at h2
    simp [show ¬(data.length ≤ offset) from by omega,
      show ¬(data.length ≤ offset + 1) from by omega, h2, h3]

/-- Witness for C3: a two-byte packet whose pointer targets itself decodes to
the circular-reference error. -/
theorem c3_witness :
    DnsQuery.readDomainName [192, 0] 0 = .error .circularReference :=
  c3_name_decoding_terminates.2.1 [192, 0] 0 (by decide) (by decide) (by decide)

/-- C10: decoding a name that consists solely of the root terminator returns
the string "." (also when the zero byte is reached through a compression
pointer), and a successful name decode is never the empty string. -/
theorem c10_root_decodes_to_dot :
    (∀ (data : List Nat) (offset : Nat), offset < data.length →
        data.getD offset 0 = 0 → DnsQuery.readDomainName data offset = .ok ".")
    ∧ (∀ (data : List Nat) (offset : Nat) (s : String),
        DnsQuery.readDomainName data offset = .ok s → s ≠ "")
    ∧ DnsQuery.readDomainName [192, 2, 0] 0 = .ok "." := by
  refine ⟨?_, ?_, by rfl⟩
  · intro data offset h1 h0
    unfold DnsQuery.readDomainName
    simp only [DnsQuery.readDomainNameAux]
    simp only [List.getD_eq_getElem?_getD] at h0
    simp [show ¬(data.length ≤ offset) from by omega, h0]
  · intro data offset s h
    exact DnsQuery.readDomainNameAux_ok_ne_empty data _ _ [] _ [] s (by simp) h

/-- Witness for C10: the one-byte root name decodes to ".". -/
theorem c10_witness : DnsQuery.readDomainName [0] 0 = .ok "." :=
  c10_root_decodes_to_dot.1 [0] 0 (by decide) rfl

/-- C4: a response of at least 12 bytes whose RCODE (low 4 bits of the flags
field) is non-zero decodes to that RCODE with an empty answer list, without
parsing the question section or any resource record — even when the header's
answer count is non-zero. -/
theorem c4_nonzero_rcode_short_circuits :
    ∀ (response : List Nat), 12 ≤ response.length →
      Nat.land (DnsQuery.be16 response 2) 15 ≠ 0 →
      DnsQuery.ParseDNSResponse response =
        .ok (Nat.land (DnsQuery.be16 response 2) 15, []) := by
  intro r h12 hrc
  simp [DnsQuery.ParseDNSResponse, show ¬(r.length < 12) from by omega, hrc]

/-- Witness for C4: an NXDOMAIN response whose header claims five answers
still decodes to response code 3 with no answers. -/
theorem c4_witness :
    DnsQuery.ParseDNSResponse [0, 0, 129, 131, 0, 0, 0, 5, 0, 0, 0, 0] =
      .ok (3, []) :=
  c4_nonzero_rcode_short_circuits [0, 0, 129, 131, 0, 0, 0, 5, 0, 0, 0, 0]
    (by decide) (by decide)

namespace DnsQuery

/-- A success response carrying two A answer records: the first has a
5-byte data section (malformed), the second the 4-byte address 1.2.3.4. -/
def c7demoPacket : List Nat :=
  [0, 0, 129, 128, 0, 0, 0, 2, 0, 0, 0, 0] ++
  [0, 0, 1, 0, 1, 0, 0, 0, 0, 0, 5, 9, 9, 9, 9, 9] ++
  [0, 0, 1, 0, 1, 0, 0, 0, 0, 0, 4, 1, 2, 3, 4]

end DnsQuery

/-- C7: an A record renders as dotted-decimal exactly when its data length is
4 bytes and an AAAA record as eight colon-separated hex groups exactly when
its data length is 16 bytes; any other length yields the empty string, which
the record loop skips while continuing with the remaining records, as the
demo packet (bad A record followed by a good one) shows. -/
theorem c7_record_length_gating :
    (∀ (data : List Nat) (offset rd : Nat), rd ≠ 4 →
        DnsQuery.parseRecord data offset DnsQuery.TypeA rd = "")
    ∧ (∀ (data : List Nat) (offset : Nat),
        DnsQuery.parseRecord data offset DnsQuery.TypeA 4 =
          DnsQuery.formatIPv4 (data.getD offset 0) (data.getD (offset + 1) 0)
            (data.getD (offset + 2) 0) (data.getD (offset + 3) 0))
    ∧ (∀ (data : List Nat) (offset rd : Nat), rd ≠ 16 →
        DnsQuery.parseRecord data offset DnsQuery.TypeAAAA rd = "")
    ∧ (∀ (data : List Nat) (offset : Nat),
        DnsQuery.parseRecord data offset DnsQuery.TypeAAAA 16 =
          DnsQuery.formatIPv6 data offset)
    ∧ DnsQuery.ParseDNSResponse DnsQuery.c7demoPacket = .ok (0, ["1.2.3.4"]) := by
  refine ⟨?_, ?_, ?_, ?_, by rfl⟩
  · intro d o rd h
    simp [DnsQuery.parseRecord, DnsQuery.TypeA, h]
  · intro d o
    rfl
  · intro d o rd h
    simp [DnsQuery.parseRecord, DnsQuery.TypeA, DnsQuery.TypeAAAA, h]
  · intro d o
    rfl

/-- Witness for C7: a 5-byte A record is skipped, a 4-byte one renders. -/
theorem c7_witness :
    DnsQuery.parseRecord [9, 9, 9, 9, 9] 0 DnsQuery.TypeA 5 = "" ∧
    DnsQuery.parseRecord [1, 2, 3, 4] 0 DnsQuery.TypeA 4 = "1.2.3.4" :=
  ⟨c7_record_length_gating.1 [9, 9, 9, 9, 9] 0 5 (by decide),
   by rw [c7_record_length_gating.2.1]; rfl⟩

namespace DnsQuery

/-- The skip loop advances by at least two bytes per iteration while staying
in bounds, so its fuel sentinel is unreachable under the stated budget. -/
theorem skipDomainNameAux_ne_outOfFuel (data : List Nat) :
    ∀ (fuel offset : Nat), 1 ≤ fuel → data.length + 2 ≤ 2 * fuel + offset →
      skipDomainNameAux data fuel offset ≠ .error .outOfFuel := by
  intro fuel
  induction fuel with
  | zero => intro offset h1 _; omega
  | succ fuel ih =>
    intro offset _ hle
    simp only [skipDomainNameAux]
    split
    · simp
    · rename_i hoff
      split
      · simp
      · split
        · simp
        · refine ih (offset + 1 + data.getD offset 0) ?_ ?_
          · by_contra hc
            push_neg at hc
            interval_cases fuel
            omega
          · rename_i hzero
            have : 1 ≤ data.getD offset 0 := by omega
            omega

/-- The skip entry point never runs out of fuel. -/
theorem skipDomainName_ne_outOfFuel (data : List Nat) (offset : Nat) :
    skipDomainName data offset ≠ .error .outOfFuel :=
  skipDomainNameAux_ne_outOfFuel data (data.length + 1) offset (by omega) (by omega)

end DnsQuery

namespace DnsTransport

/-- Every successful read delivers at least one byte, so the accumulation
loop's fuel sentinel is unreachable when the fuel covers the byte count. -/
theorem readFullAux_ne_outOfFuel :
    ∀ (fuel : Nat) (stream sched : List Nat) (needed : Nat), needed ≤ fuel →
      readFullAux fuel stream sched needed ≠ .error .outOfFuel := by
  intro fuel
  induction fuel with
  | zero =>
    intro stream sched needed h
    have : needed = 0 := by omega
    simp [readFullAux, this]
  | succ fuel ih =>
    intro stream sched needed h
    simp only [readFullAux]
    split
    · simp
    · split
      · simp
      · rename_i hne hs
        have hstream : 1 ≤ stream.length := by
          cases stream with
          | nil => simp at hs
          | cons a t => simp
        have hgot : 1 ≤ (stream.take (min (max 1 (sched.headD 1)) needed)).length := by
          simp only [List.length_take]
          have : 1 ≤ min (max 1 (sched.headD 1)) needed := by
            refine le_min (le_max_left _ _) ?_
            omega
          omega
        split
        · rename_i e heq
          intro hcon
          injection hcon with hcon
          subst hcon
          exact ih _ _ _ (by omega) heq
        · simp

end DnsTransport

namespace DnsQuery

/-- The label check succeeds exactly when every label is non-empty and at
most 63 bytes long. -/
theorem checkLabels_eq_ok_iff :
    ∀ ls : List (List Nat),
      checkLabels ls = .ok () ↔ ∀ l ∈ ls, l ≠ [] ∧ l.length ≤ 63 := by
  intro ls
  induction ls with
  | nil => simp [checkLabels]
  | cons l ls ih =>
    simp only [checkLabels]
    by_cases h0 : l.length = 0
    · have : l = [] := List.length_eq_zero.mp h0
      simp [h0, this]
    · by_cases h63 : 63 < l.length
      · simp only [h0, if_neg h0, if_pos h63]
        simp only [List.mem_cons]
        constructor
        · intro h; exact absurd h (by simp)
        · intro h
          exact absurd (h l (Or.inl rfl)).2 (by omega)
      · have hne : l ≠ [] := fun hc => h0 (by simp [hc])
        simp only [if_neg h0, if_neg h63, ih, List.mem_cons]
        constructor
        · intro h l' hl'
          rcases hl' with h' | h'
          · subst h'; exact ⟨hne, by omega⟩
          · exact h l' h'
        · intro h l' hl'
          exact h l' (Or.inr hl')

end DnsQuery

/-- C5: building a query packet fails exactly when the domain is empty,
contains an empty label, or contains a label longer than 63 bytes after a
single trailing dot is stripped; in particular a 63-byte label encodes and a
64-byte label does not. -/
theorem c5_label_bounds :
    (∀ (txID : Nat) (domain : List Nat) (queryType : Nat),
        (DnsQuery.BuildDNSQuery txID domain queryType).isOk = false ↔
          (domain = [] ∨ ∃ l ∈ DnsQuery.splitOnDot (DnsQuery.trimSuffixDot domain),
            l = [] ∨ 63 < l.length))
    ∧ (DnsQuery.BuildDNSQuery 0 (List.replicate 63 97) 1).isOk = true
    ∧ (DnsQuery.BuildDNSQuery 0 (List.replicate 64 97) 1).isOk = false := by
  refine ⟨?_, by rfl, by rfl⟩
  intro txID domain qt
  by_cases hd : domain.isEmpty
  · have hdom : domain = [] := by simpa using hd
    simp [DnsQuery.BuildDNSQuery, hd, hdom, Except.isOk, Except.toBool]
  · have hdom : domain ≠ [] := by simpa using hd
    simp only [DnsQuery.BuildDNSQuery, hd, if_neg, Bool.false_eq_true,
      DnsQuery.buildDNSQuestion, DnsQuery.encodeDomainName]
    rcases hch : DnsQuery.checkLabels
        (DnsQuery.splitOnDot (DnsQuery.trimSuffixDot domain)) with e | u
    · simp only [hch, Except.isOk, Except.toBool]
      constructor
      · intro _
        refine Or.inr ?_
        by_contra hc
        push_neg at hc
        have : DnsQuery.checkLabels
            (DnsQuery.splitOnDot (DnsQuery.trimSuffixDot domain)) = .ok () := by
          rw [DnsQuery.checkLabels_eq_ok_iff]
          intro l hl
          rcases hc l hl with ⟨h1, h2⟩
          exact ⟨h1, by omega⟩
        rw [this] at hch
        cases hch
      · intro _; rfl
    · cases u
      simp only [hch, Except.isOk, Except.toBool]
      rw [DnsQuery.checkLabels_eq_ok_iff] at hch
      constructor
      · intro h; cases h
      · intro h
        rcases h with h | ⟨l, hl, hbad⟩
        · exact absurd h hdom
        · rcases hch l hl with ⟨h1, h2⟩
          rcases hbad with h' | h'
          · exact absurd h' h1
          · omega

/-- Witness for C5: a two-label domain with in-range labels builds, and the
iff classifies a domain with an oversized label as failing. -/
theorem c5_witness :
    (DnsQuery.BuildDNSQuery 7 [97, 46, 98, 99] 1).isOk = false ↔
      ([97, 46, 98, 99] : List Nat) = [] ∨
        ∃ l ∈ DnsQuery.splitOnDot (DnsQuery.trimSuffixDot [97, 46, 98, 99]),
          l = [] ∨ 63 < l.length :=
  c5_label_bounds.1 7 [97, 46, 98, 99] 1

/-- C6 counterexample: the auto-scale function is not non-decreasing — a batch
of 10 gets 10 workers while a batch of 11 gets only 5. -/
theorem c6_counterexample :
    (10 : Nat) ≤ 11 ∧
      DnsConfig.CalculateOptimalWorkers 10 = 10 ∧
      DnsConfig.CalculateOptimalWorkers 11 = 5 ∧
      ¬(DnsConfig.CalculateOptimalWorkers 10 ≤ DnsConfig.CalculateOptimalWorkers 11) := by
  refine ⟨by omega, by rfl, by rfl, by decide⟩

set_option maxHeartbeats 2000000 in
/-- C6 as amended: the auto-scale function always returns between 1 and the
configured maximum of 50, and it is non-decreasing within the small-batch
region (up to 10) and within the region of batches of at least 11, but not
across the boundary between the two. -/
theorem c6_worker_scale_bounded :
    (∀ n : Nat, 1 ≤ DnsConfig.CalculateOptimalWorkers n ∧
        DnsConfig.CalculateOptimalWorkers n ≤ 50)
    ∧ (∀ m n : Nat, m ≤ n → n ≤ 10 →
        DnsConfig.CalculateOptimalWorkers m ≤ DnsConfig.CalculateOptimalWorkers n)
    ∧ (∀ m n : Nat, 11 ≤ m → m ≤ n →
        DnsConfig.CalculateOptimalWorkers m ≤ DnsConfig.CalculateOptimalWorkers n) := by
  refine ⟨?_, ?_, ?_⟩
  · intro n
    simp only [DnsConfig.CalculateOptimalWorkers, DnsConfig.MinWorkers,
      DnsConfig.MaxWorkers, DnsConfig.WorkersPerQuery]
    split_ifs <;> omega
  · intro m n hmn h10
    simp only [DnsConfig.CalculateOptimalWorkers, DnsConfig.MinWorkers,
      DnsConfig.MaxWorkers, DnsConfig.WorkersPerQuery]
    split_ifs <;> omega
  · intro m n h11 hmn
    simp only [DnsConfig.CalculateOptimalWorkers, DnsConfig.MinWorkers,
      DnsConfig.MaxWorkers, DnsConfig.WorkersPerQuery]
    split_ifs <;> omega

/-- Witness for C6: the bounds at a sample batch size, and monotonicity on a
sample pair inside the large-batch region. -/
theorem c6_witness :
    (1 ≤ DnsConfig.CalculateOptimalWorkers 37 ∧
        DnsConfig.CalculateOptimalWorkers 37 ≤ 50) ∧
      DnsConfig.CalculateOptimalWorkers 20 ≤ DnsConfig.CalculateOptimalWorkers 40 :=
  ⟨c6_worker_scale_bounded.1 37, c6_worker_scale_bounded.2.2 20 40 (by omega) (by omega)⟩

namespace DnsExec

/-- Each answer record grows the combined output of the answer-splitting loop
by exactly one entry. -/
theorem parseAnswers_foldl_length :
    ∀ (l : List RR) (acc : List String × List String),
      (l.foldl parseAnswersStep acc).1.length + (l.foldl parseAnswersStep acc).2.length =
        acc.1.length + acc.2.length + l.length := by
  intro l
  induction l with
  | nil => intro acc; simp
  | cons rr rest ih =>
    intro acc
    rw [List.foldl_cons, ih]
    cases rr <;> simp [parseAnswersStep] <;> omega

/-- A non-empty answer section always produces at least one IP or one
formatted record. -/
theorem parseAnswers_ne_nil (answers : List RR) (h : ¬answers.isEmpty) :
    ¬(parseAnswers answers).1.isEmpty ∨ ¬(parseAnswers answers).2.isEmpty := by
  have hlen := parseAnswers_foldl_length answers ([], [])
  by_contra hc
  push_neg at hc
  rcases hc with ⟨h1, h2⟩
  rw [List.isEmpty_iff] at h1 h2
  simp only [parseAnswers] at h1 h2
  rw [h1, h2] at hlen
  rcases answers with _ | ⟨rr, rest⟩
  · simp at h
  · simp at hlen

/-- The NS-fallback stage never changes the status. -/
theorem applyNSFallback_status (lk : ExchangeResult) (r : QueryResultM) :
    (applyNSFallback lk r).status = r.status := by
  simp only [applyNSFallback]
  split_ifs <;> simp

/-- The NS-fallback stage always leaves a non-nil slice. -/
theorem applyNSFallback_isSome (lk : ExchangeResult) (r : QueryResultM) :
    (applyNSFallback lk r).authoritativeNS.isSome = true := by
  simp only [applyNSFallback]
  split_ifs <;> simp_all [Option.isNone_iff_eq_none] <;>
    (rename_i hne; exact Option.isSome_iff_ne_none.mpr hne)

/-- The classification stage never touches the authoritative-NS slice. -/
theorem classifyResponse_authNS (m : DnsMsg) (r : QueryResultM) :
    (classifyResponse m r).authoritativeNS = r.authoritativeNS := by
  simp only [classifyResponse]
  rcases parseAnswers m.answer with ⟨ips, records⟩
  split_ifs <;> simp

/-- The classification stage's status: `Success` exactly for a code-0
response with a non-empty answer section, otherwise the §4.3 table row for
the code with no IP answer. -/
theorem classifyResponse_status (m : DnsMsg) (r : QueryResultM) :
    (classifyResponse m r).status =
      if m.rcode = 0 ∧ ¬m.answer.isEmpty then DnsResult.Status.success
      else specStatusTable m.rcode false := by
  simp only [classifyResponse]
  rcases hpa : parseAnswers m.answer with ⟨ips, records⟩
  by_cases h0 : m.rcode = 0
  · by_cases hemp : m.answer.isEmpty
    · simp [h0, hemp, specStatusTable]
      split_ifs <;> simp
    · have := parseAnswers_ne_nil m.answer hemp
      rw [hpa] at this
      simp only [h0, hemp] at *
      simp [hpa, specStatusTable]
      split_ifs <;> simp_all
  · simp [h0, specStatusTable]
    split_ifs <;> simp_all

end DnsExec

/-- C1 counterexample: a decoded response with code 0 whose only answer is a
CNAME record (zero IP addresses, other records present) is classified
`Success` by the current executor, while the §4.3 table prescribes
`NoAnswer` for code 0 without an IP answer. -/
theorem c1_counterexample :
    (DnsExec.ExecuteQuery
        (.ok { rcode := 0, answer := [.CNAME "alias.example.com."],
               ns := [], extra := [] })
        (.err "ns lookup failed")).status = DnsResult.Status.success
    ∧ (DnsExec.ExecuteQuery
        (.ok { rcode := 0, answer := [.CNAME "alias.example.com."],
               ns := [], extra := [] })
        (.err "ns lookup failed")).resolvedIPs = []
    ∧ DnsExec.specStatusTable 0 false = DnsResult.Status.noAnswer
    ∧ DnsResult.Status.success ≠ DnsResult.Status.noAnswer :=
  ⟨rfl, rfl, rfl, by decide⟩

/-- C1 as amended: the older `determineStatus` helpers follow the §4.3 table
exactly, while the current executor deviates in one case — a code-0 response
with a non-empty answer section is always classified `Success` (every answer
contributes an IP or a formatted record), and `NoAnswer` is reserved for a
code-0 response with an empty answer section; codes 3, 2, 5 and all others
map to `NXDomain`, `ServFail`, `Refused` and `Error` as in the table. -/
theorem c1_status_classification :
    (∀ (rcode : Nat) (ips : List String),
        DnsExec.determineStatus rcode ips =
          DnsExec.specStatusTable rcode (!ips.isEmpty))
    ∧ (∀ (m : DnsExec.DnsMsg) (lk : DnsExec.ExchangeResult),
        (DnsExec.ExecuteQuery (.ok m) lk).status =
          if m.rcode = 0 ∧ ¬m.answer.isEmpty then DnsResult.Status.success
          else DnsExec.specStatusTable m.rcode false) := by
  constructor
  · intro rcode ips
    simp only [DnsExec.determineStatus, DnsExec.specStatusTable]
    split_ifs <;> simp_all
  · intro m lk
    simp only [DnsExec.ExecuteQuery]
    rw [DnsExec.applyNSFallback_status, DnsExec.classifyResponse_status]

/-- C9: every result of the executor carries a present (non-nil)
authoritative-nameserver slice on every return path; the fallback NS lookup's
outcome never changes the query's status; and when the response carried no NS
records and the fallback lookup fails, the slice is the empty list. -/
theorem c9_authoritative_ns_present :
    (∀ (exch lk : DnsExec.ExchangeResult),
        (DnsExec.ExecuteQuery exch lk).authoritativeNS.isSome = true)
    ∧ (∀ (exch lk lk' : DnsExec.ExchangeResult),
        (DnsExec.ExecuteQuery exch lk).status = (DnsExec.ExecuteQuery exch lk').status)
    ∧ (∀ (m : DnsExec.DnsMsg) (msg : String),
        DnsExec.goLen (DnsExec.extractAuthoritativeNS m.ns m.extra) = 0 →
        (DnsExec.ExecuteQuery (.ok m) (.err msg)).authoritativeNS = some []) := by
  refine ⟨?_, ?_, ?_⟩
  · intro exch lk
    cases exch with
    | err msg => rfl
    | ok m =>
      simp only [DnsExec.ExecuteQuery]
      exact DnsExec.applyNSFallback_isSome lk _
  · intro exch lk lk'
    cases exch with
    | err msg => rfl
    | ok m =>
      simp only [DnsExec.ExecuteQuery]
      rw [DnsExec.applyNSFallback_status, DnsExec.applyNSFallback_status]
  · intro m msg h
    simp only [DnsExec.ExecuteQuery, DnsExec.applyNSFallback]
    rw [DnsExec.classifyResponse_authNS] at *
    simp [h, DnsExec.lookupAuthoritativeNS]

/-- Witness for C9: a response with no NS records whose fallback lookup fails
still yields the empty (non-nil) nameserver list. -/
theorem c9_witness :
    DnsExec.goLen (DnsExec.extractAuthoritativeNS ([] : List DnsExec.RR) []) = 0 ∧
      (DnsExec.ExecuteQuery (.ok { rcode := 3, answer := [], ns := [], extra := [] })
          (.err "fallback failed")).authoritativeNS = some [] :=
  ⟨rfl, c9_authoritative_ns_present.2.2
    { rcode := 3, answer := [], ns := [], extra := [] } "fallback failed" rfl⟩

namespace DnsTransport

/-- When the stream holds enough bytes, the accumulation loop returns exactly
the first `needed` bytes, across arbitrary partial-read schedules. -/
theorem readFullAux_ok :
    ∀ (fuel : Nat) (stream sched : List Nat) (needed : Nat),
      needed ≤ fuel → needed ≤ stream.length →
      readFullAux fuel stream sched needed = .ok (stream.take needed) := by
  intro fuel
  induction fuel with
  | zero =>
    intro stream sched needed h1 _
    have h0 : needed = 0 := by omega
    simp [readFullAux, h0]
  | succ fuel ih =>
    intro stream sched needed h1 h2
    by_cases h0 : needed = 0
    · simp [readFullAux, h0]
    · rcases stream with _ | ⟨a, t⟩
      · simp at h2; omega
      · simp only [List.length_cons] at h2
        set n := min (max 1 (sched.headD 1)) needed with hn
        have hn1 : 1 ≤ n := le_min (le_max_left _ _) (by omega)
        have hn2 : n ≤ needed := min_le_right _ _
        have hglen : ((a :: t).take n).length = n := by
          rw [List.length_take]
          simp only [List.length_cons]
          omega
        simp only [readFullAux, if_neg h0, List.isEmpty_cons,
          if_neg (by decide : ¬false = true), ← hn]
        rw [hglen,
          ih ((a :: t).drop n) sched.tail (needed - n) (by omega)
            (by rw [List.length_drop]; simp only [List.length_cons]; omega)]
        simp only []
        congr 1
        conv_rhs => rw [show needed = n + (needed - n) from by omega]
        rw [List.take_add]

end DnsTransport

/-- C8 counterexample: with the stream declaring a 2-byte response (prefix
00 02) but the first read delivering a single byte, `executeTCP` mis-parses
the length as 0 and returns an empty response instead of the declared 2-byte
response 09 09 — the claim's "first reads exactly 2 bytes" does not hold. -/
theorem c8_counterexample :
    (DnsTransport.executeTCP [7, 7, 7] [0, 2, 9, 9, 5] 1 []).2 = .ok []
    ∧ DnsQuery.be16 [0, 2, 9, 9, 5] 0 = 2
    ∧ (([0, 2, 9, 9, 5] : List Nat).drop 2).take 2 = [9, 9]
    ∧ (Except.ok ([] : List Nat) : Except DnsTransport.TcpErr (List Nat)) ≠ .ok [9, 9] :=
  ⟨rfl, rfl, rfl, by simp⟩

/-- C8 as amended: the transport always writes the 2-byte big-endian length
prefix (exactly the packet length when it fits 16 bits) followed by the packet
bytes; and provided the single prefix read delivers both bytes, it accumulates
exactly the number of response bytes the stream's own 2-byte big-endian prefix
declares, across arbitrary partial-read schedules. -/
theorem c8_tcp_framing :
    ∀ (packet stream : List Nat) (n1 : Nat) (sched : List Nat),
      ((DnsTransport.executeTCP packet stream n1 sched).1 =
        DnsQuery.putUint16 packet.length ++ packet)
      ∧ (packet.length < 65536 →
          (DnsTransport.executeTCP packet stream n1 sched).1 =
            [packet.length / 256, packet.length % 256] ++ packet)
      ∧ (2 ≤ n1 →
          2 + (stream.getD 0 0 * 256 + stream.getD 1 0) ≤ stream.length →
          (DnsTransport.executeTCP packet stream n1 sched).2 =
            .ok ((stream.drop 2).take (stream.getD 0 0 * 256 + stream.getD 1 0))) := by
  intro packet stream n1 sched
  refine ⟨rfl, ?_, ?_⟩
  · intro h
    simp [DnsTransport.executeTCP, DnsQuery.putUint16, Nat.mod_eq_of_lt h]
  · intro hn1 hlen
    rcases stream with _ | ⟨a, t⟩
    · simp at hlen
    · rcases t with _ | ⟨b, t⟩
      · simp at hlen; omega
      · have hmin : min (max 1 n1) 2 = 2 := by omega
        simp only [DnsTransport.executeTCP, List.isEmpty_cons, hmin,
          if_neg (by decide : ¬false = true), DnsTransport.readFull]
        have htake : ((a :: b :: t).take 2) = [a, b] := rfl
        have hdrop : ((a :: b :: t).drop 2) = t := rfl
        rw [htake, hdrop]
        simp only [List.getD_cons_zero, List.getD_cons_succ] at hlen ⊢
        rw [DnsTransport.readFullAux_ok _ _ _ _ (le_refl _) (by
          simp only [List.length_cons] at hlen
          omega)]

/-- Witness for C8: a 3-byte packet is framed as 00 03 followed by the
payload, and a declared 2-byte response arrives intact even when the body is
delivered one byte at a time. -/
theorem c8_witness :
    (DnsTransport.executeTCP [7, 7, 7] [0, 2, 9, 9, 5] 2 [1]).1 = [0, 3, 7, 7, 7]
    ∧ (DnsTransport.executeTCP [7, 7, 7] [0, 2, 9, 9, 5] 2 [1]).2 = .ok [9, 9] :=
  ⟨(c8_tcp_framing [7, 7, 7] [0, 2, 9, 9, 5] 2 [1]).2.1 (by decide),
   (c8_tcp_framing [7, 7, 7] [0, 2, 9, 9, 5] 2 [1]).2.2 (by decide) (by decide)⟩

namespace WorkerPool

/-- The all-work-done state of `worker.Execute` on the one-spec batch with one
worker: spec submitted, jobs channel closed, the worker has executed the query,
pushed its result and exited, and the driver has received the result — yet the
results channel is still open and the driver is still inside its drain loop. -/
def stuck1 (exec : Nat → Nat) : PoolState :=
  { toSubmit := [], jobsClosed := true, jobsBuf := [], resBuf := [],
    resClosed := false, holding := [], exited := 1, collected := [exec 42],
    mainPC := .drain }

end WorkerPool

/-- C2: in `worker.Execute`, the results channel is closed only by `Wait()`,
which the driver calls after its drain loop — but the drain loop exits only
once the channel is closed.  Hence in every reachable state the channel is
still open and the driver is still draining, so `Execute` never returns;
moreover on a one-spec batch with one worker the system reaches a state where
all work is done and no step is enabled (a deadlock). -/
theorem c2_execute_never_returns :
    (∀ (W : Nat) (exec : Nat → Nat) (specs : List Nat) (s : WorkerPool.PoolState),
        WorkerPool.Reachable W exec (WorkerPool.init specs) s →
        s.resClosed = false ∧ s.mainPC = .drain)
    ∧ (∀ (exec : Nat → Nat),
        WorkerPool.Reachable 1 exec (WorkerPool.init [42]) (WorkerPool.stuck1 exec))
    ∧ (∀ (exec : Nat → Nat) (t : WorkerPool.PoolState),
        ¬WorkerPool.Step 1 exec (WorkerPool.stuck1 exec) t) := by
  refine ⟨?_, ?_, ?_⟩
  · intro W exec specs s h
    induction h with
    | refl => exact ⟨rfl, rfl⟩
    | tail _ hstep ih => cases hstep <;> simp_all
  · intro exec
    have h1 : WorkerPool.Step 1 exec (WorkerPool.init [42])
        { toSubmit := [], jobsClosed := false, jobsBuf := [42], resBuf := [],
          resClosed := false, holding := [], exited := 0, collected := [],
          mainPC := .drain } :=
      WorkerPool.Step.submit (WorkerPool.init [42]) 42 [] rfl rfl (by simp [WorkerPool.init])
    have h2 : WorkerPool.Step 1 exec
        { toSubmit := [], jobsClosed := false, jobsBuf := [42], resBuf := [],
          resClosed := false, holding := [], exited := 0, collected := [],
          mainPC := .drain }
        { toSubmit := [], jobsClosed := true, jobsBuf := [42], resBuf := [],
          resClosed := false, holding := [], exited := 0, collected := [],
          mainPC := .drain } :=
      WorkerPool.Step.closeJobs _ rfl rfl
    have h3 : WorkerPool.Step 1 exec
        { toSubmit := [], jobsClosed := true, jobsBuf := [42], resBuf := [],
          resClosed := false, holding := [], exited := 0, collected := [],
          mainPC := .drain }
        { toSubmit := [], jobsClosed := true, jobsBuf := [], resBuf := [],
          resClosed := false, holding := [exec 42], exited := 0, collected := [],
          mainPC := .drain } :=
      WorkerPool.Step.take _ 42 [] rfl (by simp)
    have h4 : WorkerPool.Step 1 exec
        { toSubmit := [], jobsClosed := true, jobsBuf := [], resBuf := [],
          resClosed := false, holding := [exec 42], exited := 0, collected := [],
          mainPC := .drain }
        { toSubmit := [], jobsClosed := true, jobsBuf := [], resBuf := [exec 42],
          resClosed := false, holding := [], exited := 0, collected := [],
          mainPC := .drain } :=
      WorkerPool.Step.push _ (exec 42) [] rfl (by simp)
    have h5 : WorkerPool.Step 1 exec
        { toSubmit := [], jobsClosed := true, jobsBuf := [], resBuf := [exec 42],
          resClosed := false, holding := [], exited := 0, collected := [],
          mainPC := .drain }
        { toSubmit := [], jobsClosed := true, jobsBuf := [], resBuf := [exec 42],
          resClosed := false, holding := [], exited := 1, collected := [],
          mainPC := .drain } :=
      WorkerPool.Step.exitWorker _ rfl rfl (by simp)
    have h6 : WorkerPool.Step 1 exec
        { toSubmit := [], jobsClosed := true, jobsBuf := [], resBuf := [exec 42],
          resClosed := false, holding := [], exited := 1, collected := [],
          mainPC := .drain }
        (WorkerPool.stuck1 exec) :=
      WorkerPool.Step.recv _ (exec 42) [] rfl rfl
    exact (((((Relation.ReflTransGen.single h1).tail h2).tail h3).tail h4).tail h5).tail h6
  · intro exec t h
    cases h <;> simp_all [WorkerPool.stuck1]

/-- Witness for C2: the deadlocked end state of the one-spec run still has the
results channel open and the driver draining. -/
theorem c2_witness :
    (WorkerPool.stuck1 (fun j => j)).resClosed = false ∧
      (WorkerPool.stuck1 (fun j => j)).mainPC = .drain :=
  c2_execute_never_returns.1 1 (fun j => j) [42] (WorkerPool.stuck1 (fun j => j))
    (c2_execute_never_returns.2.1 (fun j => j))
